import Mathlib

/-!
Verification of the urdaemon core: a shallow embedding of the EAccess
authentication client (`urdaemon/simutronics/eaccess.py`), the framed
connection (`urdaemon/connection.py`) and the event-routing engine
(`urdaemon/engine.py`), with theorems settling the specification claims.

Conventions of the embedding:
- Python `bytes` values are `List Nat`, each element in `[0, 256)`.
- Python `int` arithmetic is `Int`; bitwise xor on possibly negative
  operands is the two's-complement xor `intXor` defined below.
- A Python function that can raise is embedded as `Option`/`Except`.
- Python `str` operations (`split`, `replace`, `join`, `in`, `int()`,
  `title()`) are embedded as structurally recursive functions over the
  string's character list, defined below.
-/

namespace Urdaemon

/-- Two's-complement bitwise xor on `Int`, the semantics of Python's
`^` operator on arbitrary (possibly negative) integers:
`(-a) ^ b = -(((a-1) ^ b) + 1)` etc. -/
def intXor (m n : Int) : Int :=
  if m ≥ 0 then
    if n ≥ 0 then
      ((m.toNat ^^^ n.toNat : Nat) : Int)
    else
      -(((m.toNat ^^^ (-n - 1).toNat : Nat) : Int) + 1)
  else
    if n ≥ 0 then
      -((((-m - 1).toNat ^^^ n.toNat : Nat) : Int) + 1)
    else
      (((-m - 1).toNat ^^^ (-n - 1).toNat : Nat) : Int)

/-- The per-byte obfuscation value `((c - 32) ^ k) + 32` computed by
`encrypt_password` (Python `int` arithmetic, no wraparound). -/
def obfByte (c k : Nat) : Int :=
  intXor ((c : Int) - 32) (k : Int) + 32

/-- `EAccessClient.encrypt_password` (eaccess.py): zips the encoded
password and hash key (Python `zip` truncates to the shorter input) and
builds a `bytes` from the generator of `((c - 32) ^ k) + 32` values.
Python's `bytes(iterable)` raises `ValueError` when any value is
outside `[0, 256)`; that failure is the `none` case here.  Inputs are
the byte sequences produced by `str.encode()`. -/
def encrypt_password (password hashkey : List Nat) : Option (List Nat) :=
  if ((password.zip hashkey).map fun ck => obfByte ck.1 ck.2).all
      (fun v => 0 ≤ v && v < 256) then
    some (((password.zip hashkey).map fun ck => obfByte ck.1 ck.2).map Int.toNat)
  else
    none

/-- The obfuscation function as the specification claim words it:
`((((c − 32) XOR k) + 32)) mod 256` applied to each aligned byte pair,
always returning a byte sequence. -/
def encrypt_password_claimed (password hashkey : List Nat) : List Nat :=
  (password.zip hashkey).map fun ck => ((obfByte ck.1 ck.2) % 256).toNat

/-!
Python string primitives, embedded over the character list of the
string so that every operation is structurally recursive (and hence
evaluates on concrete inputs).  `pySplitList` scans left to right and
emits a field each time the accumulated field ends with the separator,
which is exactly the leftmost non-overlapping occurrence semantics of
Python's `str.split(sep)`; `str.replace(old, new)` for non-empty `old`
is `new.join(s.split(old))`.
-/

/-- Scan for `str.split(sep)`: `cur` is the reversed current field. -/
def pySplitAux (sep : List Char) : List Char → List Char → List (List Char)
  | [], cur => [cur.reverse]
  | c :: rest, cur =>
      let cur' := c :: cur
      if sep.isSuffixOf cur'.reverse then
        (cur'.reverse.take (cur'.length - sep.length)) :: pySplitAux sep rest []
      else
        pySplitAux sep rest cur'

/-- Python `s.split(sep)` on character lists, for non-empty `sep`
(the only way the code calls it; Python raises on an empty separator). -/
def pySplitList (sep s : List Char) : List (List Char) :=
  if sep = [] then [s] else pySplitAux sep s []

/-- Python `sep.join(parts)` on character lists. -/
def pyJoinList (sep : List Char) : List (List Char) → List Char
  | [] => []
  | [p] => p
  | p :: ps => p ++ sep ++ pyJoinList sep ps

/-- Python `s.split(sep)`. -/
def pySplit (s sep : String) : List String :=
  (pySplitList sep.toList s.toList).map String.mk

/-- Python `sep.join(parts)`. -/
def pyJoin (sep : String) (parts : List String) : String :=
  ⟨pyJoinList sep.toList (parts.map String.toList)⟩

/-- Python `s.replace(old, new)` for non-empty `old`:
`new.join(s.split(old))`. -/
def pyReplace (s old new : String) : String :=
  ⟨pyJoinList new.toList (pySplitList old.toList s.toList)⟩

/-- Python `int(s)` for the plain decimal numerals the protocol
carries, as `none` (`ValueError`) on anything else. -/
def pyInt? (s : String) : Option Nat :=
  if s.toList ≠ [] ∧ s.toList.all Char.isDigit then
    some (s.toList.foldl (fun n c => 10 * n + (c.toNat - 48)) 0)
  else
    none

/-- Python's substring test `pat in s` for a non-empty pattern:
`s.split(pat)` has more than one part exactly when `pat` occurs in `s`. -/
def containsSubstr (s pat : String) : Bool :=
  (pySplit s pat).length != 1

instance {ε α : Type} [DecidableEq ε] [DecidableEq α] :
    DecidableEq (Except ε α) := fun x y =>
  match x, y with
  | .ok a, .ok b =>
      if h : a = b then .isTrue (by rw [h]) else .isFalse (by simp [h])
  | .error a, .error b =>
      if h : a = b then .isTrue (by rw [h]) else .isFalse (by simp [h])
  | .ok _, .error _ => .isFalse (by simp)
  | .error _, .ok _ => .isFalse (by simp)

/-- `Response` (eaccess.py): one decoded reply from the EAccess server,
action code and trailing newline already stripped. -/
structure Response where
  body : String
  request : List Nat
deriving Repr, DecidableEq

/-- Every other element of a list starting with the head: Python's
`islice(vals, start, None, 2)` applied after dropping `start` elements. -/
def strided {α : Type} : List α → List α
  | [] => []
  | [a] => [a]
  | a :: _ :: rest => a :: strided rest

/-- `Response.split`: split the tab separated body. -/
def Response.split (r : Response) : List String :=
  pySplit r.body "\t"

/-- The default (`swap = False`) pairing of a field list:
`zip(islice(vals, 0, None, 2), islice(vals, 1, None, 2))`. -/
def pairsOfFields (vals : List String) : List (String × String) :=
  (strided vals).zip (strided (vals.drop 1))

/-- The flat field sequence of a list of adjacent-field pairs. -/
def flattenPairs {α : Type} : List (α × α) → List α
  | [] => []
  | (a, b) :: r => a :: b :: flattenPairs r

/-- `Response.pairs`: zip the even-index fields with the odd-index fields
(`zip(islice(vals, key_start, None, 2), islice(vals, val_start, None, 2))`);
with `swap` set the roles of even and odd positions are exchanged. -/
def Response.pairs (r : Response) (swap : Bool) : List (String × String) :=
  let vals := r.split
  if swap then
    (strided (vals.drop 1)).zip (strided vals)
  else
    pairsOfFields vals

/-- Python `x.partition("=")` reduced to the two components the code
keeps: the text before the first `=` and everything after it
(`("x", "")` when there is no `=`). -/
def partitionEq (x : String) : String × String :=
  match pySplit x "=" with
  | [] => (x, "")
  | [a] => (a, "")
  | a :: rest => (a, pyJoin "=" rest)

/-- A Python dict built by inserting pairs in order, as an association
list; `dictGet` is `d.get(k)`: the value of the last insertion with key
`k`, or `none`. -/
def dictGet (l : List (String × String)) (k : String) : Option String :=
  (l.filterMap fun p => if p.1 = k then some p.2 else none).getLast?

/-- `Response.json`: when the body contains `=`, partition each
tab-separated field on its first `=`; otherwise use the (key, value)
pairs.  The result is the insertion sequence of the Python dict. -/
def Response.json (r : Response) : List (String × String) :=
  if containsSubstr r.body "=" then
    r.split.map partitionEq
  else
    r.pairs false

/-- `SessionInfo` (eaccess.py): game session connection details. -/
structure SessionInfo where
  host : String
  port : Nat
  key : String
  game_code : String
  upport : Nat
  frontend : String
  frontend_name : String
  frontend_exe : String
  ok : Bool
deriving Repr, DecidableEq

/-- The decision core of `EAccessClient.authenticate_account` on the
response body: raise `AuthenticationError` (`Except.error`, carrying the
response body) when `"KEY"` does not occur in the body; otherwise return
`split()[-2]`, where Python's `[-2]` raises `IndexError` (also turned
into `AuthenticationError`) exactly when the split has fewer than two
fields. -/
def authenticate_account_fromBody (body : String) : Except String String :=
  if ¬ containsSubstr body "KEY" then
    .error body
  else
    if h : 2 ≤ (pySplit body "\t").length then
      .ok ((pySplit body "\t").get ⟨(pySplit body "\t").length - 2, by omega⟩)
    else
      .error body

/-- The core of `EAccessClient.get_characters` on the split field list:
`{k: v for i, (v, k) in enumerate(resp.pairs()) if i > 1}` as the
dict's insertion sequence — the first two pairs (four fields) are
metadata and are skipped; each remaining pair `(v, k)` is inserted as
key `k` mapped to value `v`. -/
def get_characters_fromFields (vals : List String) : List (String × String) :=
  (pairsOfFields vals).enum.filterMap
    fun ip => if 1 < ip.1 then some (ip.2.2, ip.2.1) else none

/-- `EAccessClient.get_characters` on the response body. -/
def get_characters_fromBody (body : String) : List (String × String) :=
  get_characters_fromFields (pySplit body "\t")

/-- Python `str.title()` for ASCII text: a letter that follows a letter
is lowercased, any other letter is uppercased. -/
def pyTitle (s : String) : String :=
  ⟨(s.toList.foldl
      (fun acc c =>
        let c' := if acc.2 then c.toLower else c.toUpper
        (acc.1 ++ [c'], c.isAlpha))
      (([] : List Char), false)).1⟩

/-- The response-processing core of `EAccessClient.select_character`:
normalize the bare success token (`resp.body.replace("OK\t", "OK=1\t")`),
parse the body as `key=value` json, and build the `SessionInfo`.
Python raises `KeyError` on a missing required field and `ValueError`
when `int()` fails; both are the `none` case. -/
def select_character_fromBody (body : String) : Option SessionInfo := do
  let resp : Response := ⟨pyReplace body "OK\t" "OK=1\t", []⟩
  let j := resp.json
  let host ← dictGet j "GAMEHOST"
  let port ← pyInt? (← dictGet j "GAMEPORT")
  let key ← dictGet j "KEY"
  let game_code ← dictGet j "GAMECODE"
  let upport ← pyInt? (← dictGet j "UPPORT")
  let frontend ← dictGet j "GAME"
  let frontend_name ← dictGet j "FULLGAMENAME"
  let frontend_exe ← dictGet j "GAMEFILE"
  pure { host, port, key, game_code, upport, frontend, frontend_name,
         frontend_exe, ok := dictGet j "OK" == some "1" }

/-- `EAccessClient.select_character` as a whole, over scripted response
bodies: `charsBody` is the body answering the inner `get_characters`
call (action `C`), `selBody` the body answering the select-character
request (action `L`).  The second component is the trace of action
codes sent over the connection, in order.  An unknown (title-cased)
character name raises `AuthenticationError` before the `L` request is
sent; a missing field in the selection response is the Python
`KeyError`/`ValueError` case. -/
def select_character_model (charsBody selBody : String) (character : String) :
    Except String SessionInfo × List String :=
  let characters := get_characters_fromBody charsBody
  match dictGet characters (pyTitle character) with
  | none => (.error ("Unknown character " ++ character ++ "."), ["C"])
  | some _code =>
      match select_character_fromBody selBody with
      | some si => (.ok si, ["C", "L"])
      | none => (.error "KeyError", ["C", "L"])

/-- `EAccessClient.authenticate` over scripted response bodies:
authenticate the account (steps K and A, decided by `authBody`), select
the game (response parsed and discarded), then select the character. -/
def client_authenticate (authBody charsBody selBody : String)
    (character : String) : Except String SessionInfo :=
  match authenticate_account_fromBody authBody with
  | .error e => .error e
  | .ok _key => (select_character_model charsBody selBody character).1

/-- The module-level `authenticate` function (eaccess.py): connect,
run `client.authenticate(**credentials)`, then `await client.close()`.
There is no `try`/`finally`: when the inner call raises, the exception
propagates before `close()` runs.  The boolean records whether
`close()` was called on the link. -/
def authenticate_toplevel (authBody charsBody selBody : String)
    (character : String) : Except String SessionInfo × Bool :=
  match client_authenticate authBody charsBody selBody character with
  | .ok si => (.ok si, true)
  | .error e => (.error e, false)

/-- `Connection` (connection.py): the framed stream's local state.
`openFlag` is the `_open` attribute; `writerClosing` is what
`self.writer.is_closing()` reports. -/
structure Connection where
  openFlag : Bool
  writerClosing : Bool
deriving Repr, DecidableEq

/-- `Connection.read`: `incoming` is the outcome of
`reader.readuntil(sep)` — `none` when it raises
`asyncio.IncompleteReadError` (connection exhausted mid-message), in
which case `raw_msg = b''`, `_open` is set to `False`, and `b''`
decodes to the empty string; `some text` is a complete frame, already
decoded (decoding falls back to `str(raw_msg)` on error and never
raises). -/
def Connection.read (c : Connection) (incoming : Option String) :
    String × Connection :=
  match incoming with
  | none => ("", { c with openFlag := false })
  | some text => (text, c)

/-- `Connection.is_open`: `self._open or not self.writer.is_closing()`. -/
def Connection.is_open (c : Connection) : Bool :=
  c.openFlag || !c.writerClosing

/-- `Topic` (engine.py): subscriber queues, each embedded as the list
of items put on it, in order. -/
structure Topic (α : Type) where
  subscribers : List (List α)
deriving Repr, DecidableEq

/-- The `for subscriber in self.subscribers: await subscriber.put(event)`
loop: append the event to each subscriber queue, front of the list
first (subscription order). -/
def putAll {α : Type} : List (List α) → α → List (List α)
  | [], _ => []
  | q :: qs, e => (q ++ [e]) :: putAll qs e

/-- `Topic.publish`. -/
def Topic.publish {α : Type} (t : Topic α) (e : α) : Topic α :=
  ⟨putAll t.subscribers e⟩

/-- `Topic.subscribe`: append a queue, return the subscriber count. -/
def Topic.subscribe {α : Type} (t : Topic α) (q : List α) : Topic α × Nat :=
  (⟨t.subscribers ++ [q]⟩, t.subscribers.length + 1)

/-!
Interleaving model of `Server.run` (engine.py) for the scripted
session scenario: the game connection yields its scripted messages and
then closes, and the command source yields its commands and then stops.

Each of the three coroutine loops is a thread; a schedule is the list
of threads the cooperative scheduler resumes, and one step performs one
loop iteration of the resumed thread (a loop whose `await` cannot
proceed — a `get()` on an empty queue — is blocked and its step is a
no-op).  The loops touch disjoint state except for the
`game_server_write` queue handed from the relay loop to the write loop,
so this iteration granularity preserves the observable traces.

Modelling choices tied to the source:
- `read()` yields the scripted messages in order, then raises
  `IncompleteReadError` (peer closed): it returns `""` and sets
  `_open := False` (`connOpen` here).  The walrus `while event := ...`
  exits on the falsy `""`.
- `run` never calls `connection.close()`, so `writer.is_closing()`
  stays `False` and `is_open()` (`_open or not is_closing()`) is
  always `True`: the write loop can only exit through
  `ConnectionResetError`.  A write raises `ConnectionResetError`
  exactly when the peer's closure has been observed
  (`connOpen = false`).
- the only way `fe_user_input.get()` can signal "no further items" to
  the walrus loop is a falsy item, so the scripted source enqueues its
  commands followed by the sentinel `""`.
- `published` is the trace of events handed to
  `game_event_topic.publish`; by `Topic.publish` every subscriber queue
  receives exactly this trace in order.
-/

/-- The three coroutines of `Server.run`. -/
inductive Tid
  | reader
  | writer
  | relay
deriving Repr, DecidableEq

/-- Joint state of the scripted connection, the hub queues and the
three loops. -/
structure EngineState where
  script : List String
  connOpen : Bool
  published : List String
  gameWriteQ : List String
  userInputQ : List String
  written : List String
  forwarded : List String
  readDone : Bool
  writeDone : Bool
  relayDone : Bool
deriving Repr, DecidableEq

/-- One loop iteration of the resumed thread. -/
def engineStep (s : EngineState) : Tid → EngineState
  | .reader =>
    if s.readDone then s
    else
      match s.script with
      | m :: rest =>
          if m = "" then
            { s with script := rest, readDone := true }
          else
            { s with script := rest, published := s.published ++ [m] }
      | [] =>
          { s with connOpen := false, readDone := true }
  | .writer =>
    if s.writeDone then s
    else
      match s.gameWriteQ with
      | e :: rest =>
          if s.connOpen then
            { s with gameWriteQ := rest, written := s.written ++ [e] }
          else
            { s with gameWriteQ := rest, writeDone := true }
      | [] => s
  | .relay =>
    if s.relayDone then s
    else
      match s.userInputQ with
      | e :: rest =>
          if e = "" then
            { s with userInputQ := rest, relayDone := true }
          else
            { s with userInputQ := rest,
                     gameWriteQ := s.gameWriteQ ++ [e],
                     forwarded := s.forwarded ++ [e] }
      | [] => s

/-- Run the engine under a schedule. -/
def runSched (s : EngineState) : List Tid → EngineState :=
  List.foldl engineStep s

/-- Initial state of the claimed scenario: three scripted messages,
two scripted commands followed by the exhaustion sentinel. -/
def initEngine (m1 m2 m3 c1 c2 : String) : EngineState where
  script := [m1, m2, m3]
  connOpen := true
  published := []
  gameWriteQ := []
  userInputQ := [c1, c2, ""]
  written := []
  forwarded := []
  readDone := false
  writeDone := false
  relayDone := false

/-- `asyncio.gather` returns — `run()` completes — exactly when all
three loops have finished. -/
def gatherDone (s : EngineState) : Bool :=
  s.readDone && s.writeDone && s.relayDone

/-- Reachable-state invariant of the scripted scenario: the reader
has published a prefix of the script and finishes exactly after
observing end-of-stream; the relay has forwarded a prefix of the
commands and finishes exactly after taking the sentinel. -/
def EngineInv (m1 m2 m3 c1 c2 : String) (s : EngineState) : Prop :=
  ((s.published = [] ∧ s.script = [m1, m2, m3] ∧ s.readDone = false)
    ∨ (s.published = [m1] ∧ s.script = [m2, m3] ∧ s.readDone = false)
    ∨ (s.published = [m1, m2] ∧ s.script = [m3] ∧ s.readDone = false)
    ∨ (s.published = [m1, m2, m3] ∧ s.script = [] ∧ s.readDone = false)
    ∨ (s.published = [m1, m2, m3] ∧ s.script = [] ∧ s.readDone = true))
  ∧ ((s.forwarded = [] ∧ s.userInputQ = [c1, c2, ""] ∧ s.relayDone = false)
    ∨ (s.forwarded = [c1] ∧ s.userInputQ = [c2, ""] ∧ s.relayDone = false)
    ∨ (s.forwarded = [c1, c2] ∧ s.userInputQ = [""] ∧ s.relayDone = false)
    ∨ (s.forwarded = [c1, c2] ∧ s.userInputQ = [] ∧ s.relayDone = true))

/-! ## Theorems -/

/-- `zip` truncates to the shorter input. -/
theorem zip_truncate {α β : Type} : ∀ (l1 : List α) (l2 : List β),
    l1.zip l2 = (l1.take l2.length).zip (l2.take l1.length)
  | [], _ => by simp
  | _ :: _, [] => by simp
  | a :: t1, b :: t2 => by
      simp [List.zip_cons_cons, zip_truncate t1 t2]

/-- C1 (counterexample): the claim says `encrypt_password` returns the
byte-wise `((((c − 32) XOR k) + 32)) mod 256`, but on password byte 10
(below 32) paired with hash-key byte 97 the computed value is −85, so
`bytes()` raises `ValueError` (`none`) instead of returning the claimed
byte `171 = (−85) mod 256`. -/
theorem encrypt_password_mod256_counterexample :
    encrypt_password [10] [97] = none
    ∧ encrypt_password_claimed [10] [97] = [171] := by
  decide

/-- C1 (amended): for same-length byte sequences on which every
computed value `((c − 32) XOR k) + 32` lies in `[0, 256)` — in
particular all printable-ASCII traffic the protocol uses —
`encrypt_password` returns exactly the byte-wise
`((((c − 32) XOR k) + 32)) mod 256` of the claim, and on the known
vector, password `"TEST"` (bytes `[84, 69, 83, 84]`) with hash key
bytes `[1, 2, 3, 4]`, the result is `[85, 71, 80, 80]`. -/
theorem encrypt_password_matches_claim_in_range :
    (∀ (pw hk : List Nat), pw.length = hk.length →
      (∀ p ∈ pw.zip hk, 0 ≤ obfByte p.1 p.2 ∧ obfByte p.1 p.2 < 256) →
      encrypt_password pw hk = some (encrypt_password_claimed pw hk))
    ∧ encrypt_password [84, 69, 83, 84] [1, 2, 3, 4] = some [85, 71, 80, 80] := by
  constructor
  · intro pw hk _ hrange
    unfold encrypt_password encrypt_password_claimed
    have hall : ((pw.zip hk).map fun ck => obfByte ck.1 ck.2).all
        (fun v => 0 ≤ v && v < 256) = true := by
      simp only [List.all_eq_true, List.mem_map]
      rintro v ⟨p, hp, rfl⟩
      have := hrange p hp
      simp [this.1, this.2]
    simp only [hall, if_true, List.map_map]
    congr 1
    apply List.map_congr_left
    intro p hp
    have := hrange p hp
    simp [Function.comp, Int.emod_eq_of_lt this.1 this.2]
  · decide

/-- C1 (witness): the amended theorem applied to the `"TEST"` vector. -/
theorem encrypt_password_matches_claim_in_range_witness :
    encrypt_password [84, 69, 83, 84] [1, 2, 3, 4]
      = some (encrypt_password_claimed [84, 69, 83, 84] [1, 2, 3, 4]) :=
  encrypt_password_matches_claim_in_range.1 [84, 69, 83, 84] [1, 2, 3, 4]
    (by decide) (by decide)

/-- C10: `encrypt_password` zips its inputs (truncating to the shorter),
succeeds exactly when every computed value `((c − 32) XOR k) + 32` lies
in `[0, 256)`, raises `ValueError` (`none`) whenever some aligned pair's
value falls outside that range, and on success returns exactly those
values as bytes. -/
theorem encrypt_password_partiality :
    ∀ pw hk : List Nat,
      encrypt_password pw hk
        = encrypt_password (pw.take hk.length) (hk.take pw.length)
      ∧ ((encrypt_password pw hk).isSome = true ↔
          ∀ p ∈ pw.zip hk, 0 ≤ obfByte p.1 p.2 ∧ obfByte p.1 p.2 < 256)
      ∧ (∀ c k, (c, k) ∈ pw.zip hk → (obfByte c k < 0 ∨ 256 ≤ obfByte c k) →
          encrypt_password pw hk = none)
      ∧ (∀ l, encrypt_password pw hk = some l →
          l = (pw.zip hk).map fun ck => (obfByte ck.1 ck.2).toNat) := by
  intro pw hk
  have hiff : (encrypt_password pw hk).isSome = true ↔
      ∀ p ∈ pw.zip hk, 0 ≤ obfByte p.1 p.2 ∧ obfByte p.1 p.2 < 256 := by
    unfold encrypt_password
    by_cases hall : ((pw.zip hk).map fun ck => obfByte ck.1 ck.2).all
        (fun v => 0 ≤ v && v < 256) = true
    · rw [if_pos hall]
      simp only [Option.isSome_some, true_iff]
      intro p hp
      simp only [List.all_eq_true, List.mem_map] at hall
      have := hall _ ⟨p, hp, rfl⟩
      simpa using this
    · rw [if_neg hall]
      simp only [Option.isSome_none, Bool.false_eq_true, false_iff]
      intro hcontra
      apply hall
      simp only [List.all_eq_true, List.mem_map]
      rintro v ⟨p, hp, rfl⟩
      have := hcontra p hp
      simp [this.1, this.2]
  refine ⟨?_, hiff, ?_, ?_⟩
  · unfold encrypt_password
    rw [← zip_truncate]
  · intro c k hmem hout
    cases h : encrypt_password pw hk with
    | none => rfl
    | some l =>
        exfalso
        have hs : (encrypt_password pw hk).isSome = true := by simp [h]
        have h2 := (hiff.mp hs) (c, k) hmem
        simp only at h2
        rcases hout with h1 | h1 <;> omega
  · intro l hl
    unfold encrypt_password at hl
    split at hl
    · simp only [Option.some.injEq] at hl
      subst hl
      simp [List.map_map, Function.comp]
    · exact absurd hl (by simp)

/-- C2: `authenticate_account` raises `AuthenticationError` (carrying
the response) exactly when the response body does not contain `"KEY"`
or splits into fewer than two tab-separated fields, and otherwise
returns the second-to-last tab-separated field (`split()[-2]`) as the
login key. -/
theorem authenticate_account_key_extraction : ∀ body : String,
    (∀ k, authenticate_account_fromBody body = .ok k ↔
      (containsSubstr body "KEY" = true ∧ 2 ≤ (pySplit body "\t").length ∧
       (pySplit body "\t").get? ((pySplit body "\t").length - 2) = some k))
    ∧ (authenticate_account_fromBody body = .error body ↔
       (containsSubstr body "KEY" = false ∨ (pySplit body "\t").length < 2)) := by
  intro body
  unfold authenticate_account_fromBody
  by_cases hc : containsSubstr body "KEY" = true
  · rw [if_neg (by simp [hc])]
    by_cases hl : 2 ≤ (pySplit body "\t").length
    · rw [dif_pos hl]
      constructor
      · intro k
        constructor
        · intro hk
          simp only [Except.ok.injEq] at hk
          refine ⟨hc, hl, ?_⟩
          rw [List.get?_eq_get (by omega), hk]
        · rintro ⟨-, -, hget⟩
          rw [List.get?_eq_get (by omega)] at hget
          simp only [Option.some.injEq] at hget
          rw [hget]
      · constructor
        · intro h
          simp at h
        · rintro (h | h)
          · rw [hc] at h
            cases h
          · omega
    · rw [dif_neg hl]
      constructor
      · intro k
        constructor
        · intro h
          simp at h
        · rintro ⟨-, h2, -⟩
          exact absurd h2 hl
      · exact iff_of_true rfl (Or.inr (by omega))
  · have hc' : containsSubstr body "KEY" = false := by
      simpa using hc
    rw [if_pos (by simp [hc'])]
    constructor
    · intro k
      constructor
      · intro h
        simp at h
      · rintro ⟨h1, -, -⟩
        rw [hc'] at h1
        cases h1
    · exact iff_of_true rfl (Or.inl hc')

/-- C2 (witness): on the documented success shape the extracted login
key is the second-to-last field. -/
theorem authenticate_account_key_extraction_witness :
    authenticate_account_fromBody "MYACCOUNT\tKEY\tabc\tNAME" = .ok "abc" :=
  ((authenticate_account_key_extraction "MYACCOUNT\tKEY\tabc\tNAME").1
    "abc").mpr (by decide)

/-- Adjacent-field pairing of two leading fields then a flattened pair
list. -/
theorem pairsOfFields_cons_cons (a b : String) (l : List String) :
    pairsOfFields (a :: b :: l) = (a, b) :: pairsOfFields l := by
  cases l <;> simp [pairsOfFields, strided]

/-- Pairing inverts flattening. -/
theorem pairsOfFields_flatten : ∀ ps : List (String × String),
    pairsOfFields (flattenPairs ps) = ps
  | [] => by simp [pairsOfFields, strided, flattenPairs]
  | (a, b) :: r => by
      simp [flattenPairs, pairsOfFields_cons_cons, pairsOfFields_flatten r]

/-- The `i > 1` index filter keeps every element once enumeration
starts at 2 or later. -/
theorem enumFrom_filterMap_gt_one {α β : Type} (f : α → β) :
    ∀ (xs : List α) (n : Nat), 2 ≤ n →
      ((List.enumFrom n xs).filterMap
        fun ip => if 1 < ip.1 then some (f ip.2) else none) = xs.map f
  | [], _, _ => by simp
  | x :: xs, n, hn => by
      simp only [List.enumFrom, List.filterMap_cons]
      rw [if_pos (by omega)]
      rw [enumFrom_filterMap_gt_one f xs (n + 1) (by omega)]
      simp

/-- C4 (counterexample): on a body of four metadata fields followed by
one (name, code) pair — name `"Alice"`, code `"A1"` — `get_characters`
returns the mapping `{"A1": "Alice"}`, not the claimed name→code
mapping `{"Alice": "A1"}`: the code destructures each wire pair as
`(v, k)` and inserts `k → v`, so the second field of a pair is the key. -/
theorem get_characters_pair_order_counterexample :
    get_characters_fromBody "1\t1\t0\t0\tAlice\tA1" = [("A1", "Alice")]
    ∧ get_characters_fromBody "1\t1\t0\t0\tAlice\tA1" ≠ [("Alice", "A1")] := by
  decide

/-- C4 (amended): for a character-list response of four metadata fields
followed by alternating (code, name) pairs — the wire order the
protocol actually uses — `get_characters` returns the mapping
name → code over exactly those pairs, i.e. each pair contributes
`(second field, first field)`, with the four metadata fields excluded;
concretely, with pairs `("A1", "Alice")` and `("B2", "Bob")` the
mapping is `{"Alice": "A1", "Bob": "B2"}`. -/
theorem get_characters_mapping :
    (∀ (m1 m2 m3 m4 : String) (ps : List (String × String)),
      get_characters_fromFields (m1 :: m2 :: m3 :: m4 :: flattenPairs ps)
        = ps.map fun p => (p.2, p.1))
    ∧ get_characters_fromBody "1\t1\t0\t0\tA1\tAlice\tB2\tBob"
        = [("Alice", "A1"), ("Bob", "B2")] := by
  constructor
  · intro m1 m2 m3 m4 ps
    unfold get_characters_fromFields
    rw [pairsOfFields_cons_cons, pairsOfFields_cons_cons, pairsOfFields_flatten]
    show ((List.enumFrom 0 _).filterMap _) = _
    simp only [List.enumFrom, List.filterMap_cons]
    rw [if_neg (by omega), if_neg (by omega)]
    exact enumFrom_filterMap_gt_one (fun p => (p.2, p.1)) ps 2 (by omega)
  · decide

set_option maxRecDepth 4000 in
/-- C3: `select_character` parses the response body only after the
rewrite `body.replace("OK\t", "OK=1\t")`, which turns a bare `OK`
token followed by a tab into the pair `OK=1`, and the constructed
`SessionInfo` has `ok = True` exactly when the parsed value of `OK`
in that normalized body is `"1"`.  Concretely, the bare-`OK` prefix is
rewritten to `OK=1`, and on the documented raw response body the
result has `ok = True`. -/
theorem select_character_ok_normalization :
    (∀ body si, select_character_fromBody body = some si →
      (si.ok = true ↔
        dictGet (Response.json ⟨pyReplace body "OK\t" "OK=1\t", []⟩) "OK"
          = some "1"))
    ∧ pyReplace "OK\tGAMEHOST=h" "OK\t" "OK=1\t" = "OK=1\tGAMEHOST=h"
    ∧ select_character_fromBody
        "OK\tUPPORT=5535\tGAME=STORM\tGAMECODE=GS\tFULLGAMENAME=Wrayth\tGAMEFILE=WRAYTH.EXE\tGAMEHOST=storm.gs4.game.play.net\tGAMEPORT=10024\tKEY=8f478eed8c1f6db67bbbc115d1e3db0a"
        = some ⟨"storm.gs4.game.play.net", 10024,
            "8f478eed8c1f6db67bbbc115d1e3db0a", "GS", 5535, "STORM",
            "Wrayth", "WRAYTH.EXE", true⟩ := by
  refine ⟨?_, by decide, by decide⟩
  intro body si h
  simp only [select_character_fromBody, Option.bind_eq_some, Option.pure_def,
    Option.some.injEq, bind, Option.bind_eq_some] at h
  obtain ⟨host, -, ps, -, port, -, key, -, gc, -, us, -, up, -, fe, -, fn, -,
    fx, -, hsi⟩ := h
  rw [← hsi]
  simp [beq_iff_eq]

set_option maxRecDepth 4000 in
/-- C3 (witness): a body whose `OK` value parses to `"1"` yields
`ok = True`, instantiating the equivalence at a concrete parse. -/
theorem select_character_ok_normalization_witness :
    (⟨"h", 1, "k", "GS", 5, "G", "F", "E", true⟩ : SessionInfo).ok = true :=
  (select_character_ok_normalization.1
      "OK\tGAMEHOST=h\tGAMEPORT=1\tKEY=k\tGAMECODE=GS\tUPPORT=5\tGAME=G\tFULLGAMENAME=F\tGAMEFILE=E"
      ⟨"h", 1, "k", "GS", 5, "G", "F", "E", true⟩ (by decide)).mpr (by decide)

/-- C5: when the title-cased requested character name is absent from
the name→code mapping of the character-list response,
`select_character` raises the unknown-character `AuthenticationError`
and the select-character request (action `L`) is never sent: the
request trace ends at the character-list request `C`. -/
theorem select_character_unknown_character :
    ∀ (charsBody selBody character : String),
      dictGet (get_characters_fromBody charsBody) (pyTitle character) = none →
      (select_character_model charsBody selBody character).1
          = .error ("Unknown character " ++ character ++ ".")
      ∧ "L" ∉ (select_character_model charsBody selBody character).2 := by
  intro cb sb ch h
  simp only [select_character_model, h]
  simp

/-- C5 (witness): account has only character `Alice`; requesting `bob`
fails without an `L` request. -/
theorem select_character_unknown_character_witness :
    (select_character_model "1\t1\t0\t0\tA1\tAlice" "x" "bob").1
        = .error "Unknown character bob."
    ∧ "L" ∉ (select_character_model "1\t1\t0\t0\tA1\tAlice" "x" "bob").2 :=
  select_character_unknown_character "1\t1\t0\t0\tA1\tAlice" "x" "bob"
    (by decide)

/-- C10 (witness): password byte 32 with hash-key byte 255 computes
`(0 XOR 255) + 32 = 287 ∉ [0, 256)`, so the call fails. -/
theorem encrypt_password_partiality_witness :
    encrypt_password [32] [255] = none :=
  (encrypt_password_partiality [32] [255]).2.2.1 32 255 (by decide) (by decide)

/-- C6 (counterexample): when account authentication raises (body
without `"KEY"`), the top-level `authenticate` propagates the
`AuthenticationError` without calling `client.close()` — the function
body has no `try`/`finally` — so the link is not closed (`false`),
contradicting the claimed unconditional teardown. -/
theorem authenticate_teardown_counterexample :
    authenticate_toplevel "nope" "" "" "x" = (.error "nope", false) := by
  decide

/-- C6 (amended): the top-level `authenticate` closes the
authentication link when the authentication sequence succeeds, and
leaves it unclosed when any step raises an authentication error (the
exception propagates past the `close()` call). -/
theorem authenticate_teardown :
    ∀ (authBody charsBody selBody character : String),
      (∀ si, client_authenticate authBody charsBody selBody character = .ok si →
        authenticate_toplevel authBody charsBody selBody character
          = (.ok si, true))
      ∧ (∀ e, client_authenticate authBody charsBody selBody character
            = .error e →
        authenticate_toplevel authBody charsBody selBody character
          = (.error e, false)) := by
  intro a b c d
  constructor
  · intro si h
    unfold authenticate_toplevel
    rw [h]
  · intro e h
    unfold authenticate_toplevel
    rw [h]

set_option maxRecDepth 4000 in
/-- C6 (witness): a successful end-to-end run closes the link. -/
theorem authenticate_teardown_witness :
    authenticate_toplevel "MYACCOUNT\tKEY\tabc\tNAME" "1\t1\t0\t0\tA1\tAlice"
        "OK\tGAMEHOST=h\tGAMEPORT=1\tKEY=k\tGAMECODE=GS\tUPPORT=5\tGAME=G\tFULLGAMENAME=F\tGAMEFILE=E"
        "alice"
      = (.ok ⟨"h", 1, "k", "GS", 5, "G", "F", "E", true⟩, true) :=
  (authenticate_teardown "MYACCOUNT\tKEY\tabc\tNAME" "1\t1\t0\t0\tA1\tAlice"
      "OK\tGAMEHOST=h\tGAMEPORT=1\tKEY=k\tGAMECODE=GS\tUPPORT=5\tGAME=G\tFULLGAMENAME=F\tGAMEFILE=E"
      "alice").1 ⟨"h", 1, "k", "GS", 5, "G", "F", "E", true⟩ (by decide)

/-- C7 (counterexample): after a read that hits `IncompleteReadError`
the stream returns `""` and sets `_open := False`, but `is_open()` is
`self._open or not self.writer.is_closing()`: with the writer not
closing (the usual state when the peer vanished mid-message) it still
reports `True`, contradicting the claim that every subsequent
`is_open` call reports not-open. -/
theorem connection_read_incomplete_counterexample :
    (Connection.read ⟨true, false⟩ none).1 = ""
    ∧ (Connection.read ⟨true, false⟩ none).2.openFlag = false
    ∧ Connection.is_open (Connection.read ⟨true, false⟩ none).2 = true := by
  decide

/-- C7 (amended): on an incomplete termination `read` returns the
empty text without raising and marks the stream closed
(`_open := False`); a subsequent `is_open` reports not-open exactly
when the transport also reports closing (`writer.is_closing()`). -/
theorem connection_read_incomplete :
    ∀ c : Connection,
      (c.read none).1 = ""
      ∧ (c.read none).2.openFlag = false
      ∧ ((c.read none).2.is_open = false ↔ c.writerClosing = true) := by
  intro c
  refine ⟨rfl, rfl, ?_⟩
  simp [Connection.read, Connection.is_open]

/-- The publish loop appends the event to every subscriber queue in
list (= subscription) order. -/
theorem putAll_eq_map {α : Type} (e : α) : ∀ qs : List (List α),
    putAll qs e = qs.map (fun q => q ++ [e])
  | [] => rfl
  | q :: qs => by simp [putAll, putAll_eq_map e qs]

/-- C8: `Topic.publish` hands the event to every subscriber registered
at publish time — each queue receives exactly one copy, appended after
its earlier items, with subscribers served in subscription order (the
position-preserving `map`) — before `publish` returns (the embedding
returns only the fully updated topic); with zero subscribers it
returns the topic unchanged and performs no delivery. -/
theorem topic_publish_fanout : ∀ (α : Type) (t : Topic α) (e : α),
    (t.publish e).subscribers = t.subscribers.map (fun q => q ++ [e])
    ∧ (Topic.mk ([] : List (List α))).publish e = ⟨[]⟩ := by
  intro α t e
  constructor
  · exact putAll_eq_map e t.subscribers
  · rfl

/-- One scheduler step preserves the scenario invariant. -/
theorem engineInv_step (m1 m2 m3 c1 c2 : String)
    (hm1 : m1 ≠ "") (hm2 : m2 ≠ "") (hm3 : m3 ≠ "")
    (hc1 : c1 ≠ "") (hc2 : c2 ≠ "")
    (s : EngineState) (h : EngineInv m1 m2 m3 c1 c2 s) (t : Tid) :
    EngineInv m1 m2 m3 c1 c2 (engineStep s t) := by
  obtain ⟨hr, hq⟩ := h
  cases t
  case reader =>
    rcases hr with ⟨h1, h2, h3⟩ | ⟨h1, h2, h3⟩ | ⟨h1, h2, h3⟩ | ⟨h1, h2, h3⟩ |
      ⟨h1, h2, h3⟩
    · have hstep : engineStep s Tid.reader
          = { s with script := [m2, m3], published := s.published ++ [m1] } := by
        simp [engineStep, h2, h3, hm1]
      rw [hstep]
      exact ⟨Or.inr (Or.inl ⟨by simp [h1], by simp, by simp [h3]⟩),
        by simpa using hq⟩
    · have hstep : engineStep s Tid.reader
          = { s with script := [m3], published := s.published ++ [m2] } := by
        simp [engineStep, h2, h3, hm2]
      rw [hstep]
      exact ⟨Or.inr (Or.inr (Or.inl ⟨by simp [h1], by simp, by simp [h3]⟩)),
        by simpa using hq⟩
    · have hstep : engineStep s Tid.reader
          = { s with script := [], published := s.published ++ [m3] } := by
        simp [engineStep, h2, h3, hm3]
      rw [hstep]
      exact ⟨Or.inr (Or.inr (Or.inr (Or.inl
        ⟨by simp [h1], by simp, by simp [h3]⟩))), by simpa using hq⟩
    · have hstep : engineStep s Tid.reader
          = { s with connOpen := false, readDone := true } := by
        simp [engineStep, h2, h3]
      rw [hstep]
      exact ⟨Or.inr (Or.inr (Or.inr (Or.inr ⟨by simp [h1], by simp [h2], rfl⟩))),
        by simpa using hq⟩
    · have hstep : engineStep s Tid.reader = s := by
        simp [engineStep, h3]
      rw [hstep]
      exact ⟨Or.inr (Or.inr (Or.inr (Or.inr ⟨h1, h2, h3⟩))), hq⟩
  case writer =>
    by_cases hd : s.writeDone = true
    · have hstep : engineStep s Tid.writer = s := by
        simp [engineStep, hd]
      rw [hstep]
      exact ⟨hr, hq⟩
    · cases hgw : s.gameWriteQ with
      | nil =>
          have hstep : engineStep s Tid.writer = s := by
            simp [engineStep, hd, hgw]
          rw [hstep]
          exact ⟨hr, hq⟩
      | cons e rest =>
          by_cases ho : s.connOpen = true
          · have hstep : engineStep s Tid.writer
                = { s with gameWriteQ := rest, written := s.written ++ [e] } := by
              simp [engineStep, hd, hgw, ho]
            rw [hstep]
            exact ⟨by simpa using hr, by simpa using hq⟩
          · have hstep : engineStep s Tid.writer
                = { s with gameWriteQ := rest, writeDone := true } := by
              simp [engineStep, hd, hgw, ho]
            rw [hstep]
            exact ⟨by simpa using hr, by simpa using hq⟩
  case relay =>
    rcases hq with ⟨h1, h2, h3⟩ | ⟨h1, h2, h3⟩ | ⟨h1, h2, h3⟩ | ⟨h1, h2, h3⟩
    · have hstep : engineStep s Tid.relay
          = { s with userInputQ := [c2, ""],
                     gameWriteQ := s.gameWriteQ ++ [c1],
                     forwarded := s.forwarded ++ [c1] } := by
        simp [engineStep, h2, h3, hc1]
      rw [hstep]
      exact ⟨by simpa using hr,
        Or.inr (Or.inl ⟨by simp [h1], by simp, by simp [h3]⟩)⟩
    · have hstep : engineStep s Tid.relay
          = { s with userInputQ := [""],
                     gameWriteQ := s.gameWriteQ ++ [c2],
                     forwarded := s.forwarded ++ [c2] } := by
        simp [engineStep, h2, h3, hc2]
      rw [hstep]
      exact ⟨by simpa using hr,
        Or.inr (Or.inr (Or.inl ⟨by simp [h1], by simp, by simp [h3]⟩))⟩
    · have hstep : engineStep s Tid.relay
          = { s with userInputQ := [], relayDone := true } := by
        simp [engineStep, h2, h3]
      rw [hstep]
      exact ⟨by simpa using hr,
        Or.inr (Or.inr (Or.inr ⟨by simp [h1], by simp, rfl⟩))⟩
    · have hstep : engineStep s Tid.relay = s := by
        simp [engineStep, h2, h3]
      rw [hstep]
      exact ⟨hr, Or.inr (Or.inr (Or.inr ⟨h1, h2, h3⟩))⟩

/-- The initial scenario state satisfies the invariant. -/
theorem engineInv_init (m1 m2 m3 c1 c2 : String) :
    EngineInv m1 m2 m3 c1 c2 (initEngine m1 m2 m3 c1 c2) :=
  ⟨Or.inl ⟨rfl, rfl, rfl⟩, Or.inl ⟨rfl, rfl, rfl⟩⟩

/-- Every schedule preserves the scenario invariant. -/
theorem engineInv_run (m1 m2 m3 c1 c2 : String)
    (hm1 : m1 ≠ "") (hm2 : m2 ≠ "") (hm3 : m3 ≠ "")
    (hc1 : c1 ≠ "") (hc2 : c2 ≠ "") :
    ∀ (sched : List Tid) (s : EngineState), EngineInv m1 m2 m3 c1 c2 s →
      EngineInv m1 m2 m3 c1 c2 (runSched s sched)
  | [], _, h => h
  | t :: ts, s, h =>
      engineInv_run m1 m2 m3 c1 c2 hm1 hm2 hm3 hc1 hc2 ts (engineStep s t)
        (engineInv_step m1 m2 m3 c1 c2 hm1 hm2 hm3 hc1 hc2 s h t)

/-- C9: in the scripted session — three non-empty framed messages then
close, two non-empty commands then the source stops — under every
cooperative schedule the read loop publishes only the three messages in
order (exactly all three once it finishes), the command-relay loop
forwards only the two commands in order (exactly both once it
finishes), `run()` (the `asyncio.gather`) is complete only with all
three loops terminated, at which point exactly those traces were
produced; and some schedule does drive all three loops to termination
with exactly those traces. -/
theorem engine_run_scenario :
    ∀ (m1 m2 m3 c1 c2 : String), m1 ≠ "" → m2 ≠ "" → m3 ≠ "" →
      c1 ≠ "" → c2 ≠ "" →
    (∀ sched : List Tid,
      ((runSched (initEngine m1 m2 m3 c1 c2) sched).readDone = true →
        (runSched (initEngine m1 m2 m3 c1 c2) sched).published = [m1, m2, m3])
      ∧ (runSched (initEngine m1 m2 m3 c1 c2) sched).published <+: [m1, m2, m3]
      ∧ ((runSched (initEngine m1 m2 m3 c1 c2) sched).relayDone = true →
        (runSched (initEngine m1 m2 m3 c1 c2) sched).forwarded = [c1, c2])
      ∧ (runSched (initEngine m1 m2 m3 c1 c2) sched).forwarded <+: [c1, c2]
      ∧ (gatherDone (runSched (initEngine m1 m2 m3 c1 c2) sched) = true →
        (runSched (initEngine m1 m2 m3 c1 c2) sched).published = [m1, m2, m3]
        ∧ (runSched (initEngine m1 m2 m3 c1 c2) sched).forwarded = [c1, c2]))
    ∧ (∃ sched : List Tid,
        gatherDone (runSched (initEngine m1 m2 m3 c1 c2) sched) = true
        ∧ (runSched (initEngine m1 m2 m3 c1 c2) sched).published = [m1, m2, m3]
        ∧ (runSched (initEngine m1 m2 m3 c1 c2) sched).forwarded = [c1, c2]) := by
  intro m1 m2 m3 c1 c2 hm1 hm2 hm3 hc1 hc2
  constructor
  · intro sched
    have hinv := engineInv_run m1 m2 m3 c1 c2 hm1 hm2 hm3 hc1 hc2 sched
      (initEngine m1 m2 m3 c1 c2) (engineInv_init m1 m2 m3 c1 c2)
    obtain ⟨hr, hq⟩ := hinv
    have hread : (runSched (initEngine m1 m2 m3 c1 c2) sched).readDone = true →
        (runSched (initEngine m1 m2 m3 c1 c2) sched).published
          = [m1, m2, m3] := by
      intro hdone
      rcases hr with ⟨h1, h2, h3⟩ | ⟨h1, h2, h3⟩ | ⟨h1, h2, h3⟩ | ⟨h1, h2, h3⟩ |
        ⟨h1, h2, h3⟩ <;> first | exact h1 | (rw [hdone] at h3; cases h3)
    have hrelay : (runSched (initEngine m1 m2 m3 c1 c2) sched).relayDone = true →
        (runSched (initEngine m1 m2 m3 c1 c2) sched).forwarded = [c1, c2] := by
      intro hdone
      rcases hq with ⟨h1, h2, h3⟩ | ⟨h1, h2, h3⟩ | ⟨h1, h2, h3⟩ | ⟨h1, h2, h3⟩ <;>
        first | exact h1 | (rw [hdone] at h3; cases h3)
    refine ⟨hread, ?_, hrelay, ?_, ?_⟩
    · rcases hr with ⟨h1, -, -⟩ | ⟨h1, -, -⟩ | ⟨h1, -, -⟩ | ⟨h1, -, -⟩ |
        ⟨h1, -, -⟩
      · exact ⟨[m1, m2, m3], by simp [h1]⟩
      · exact ⟨[m2, m3], by simp [h1]⟩
      · exact ⟨[m3], by simp [h1]⟩
      · exact ⟨[], by simp [h1]⟩
      · exact ⟨[], by simp [h1]⟩
    · rcases hq with ⟨h1, -, -⟩ | ⟨h1, -, -⟩ | ⟨h1, -, -⟩ | ⟨h1, -, -⟩
      · exact ⟨[c1, c2], by simp [h1]⟩
      · exact ⟨[c2], by simp [h1]⟩
      · exact ⟨[], by simp [h1]⟩
      · exact ⟨[], by simp [h1]⟩
    · intro hg
      unfold gatherDone at hg
      simp only [Bool.and_eq_true] at hg
      exact ⟨hread hg.1.1, hrelay hg.2⟩
  · refine ⟨[.reader, .reader, .reader, .reader, .relay, .relay, .relay,
      .writer], ?_⟩
    simp [runSched, engineStep, initEngine, gatherDone, hm1, hm2, hm3, hc1, hc2]

/-- C9 (witness): a concrete complete run — drain the reader, then the
relay, then let the writer observe the reset — publishes exactly the
three messages and forwards exactly the two commands. -/
theorem engine_run_scenario_witness :
    (runSched (initEngine "a" "b" "c" "u" "v")
      [.reader, .reader, .reader, .reader, .relay, .relay, .relay,
        .writer]).published = ["a", "b", "c"]
    ∧ (runSched (initEngine "a" "b" "c" "u" "v")
      [.reader, .reader, .reader, .reader, .relay, .relay, .relay,
        .writer]).forwarded = ["u", "v"] := by
  have h := (engine_run_scenario "a" "b" "c" "u" "v" (by decide) (by decide)
    (by decide) (by decide) (by decide)).1
    [.reader, .reader, .reader, .reader, .relay, .relay, .relay, .writer]
  exact ⟨h.1 (by decide), h.2.2.1 (by decide)⟩

end Urdaemon
